import Mathlib

/-!
Verification of the tool-completeness backend (hackaton-computer-vision).

Shallow embedding of `src/backend/src/modules/tools/service.py`
(`ToolService.analyze_tool_completeness`, `ToolService.analyze_batch_images`),
`src/backend/src/modules/tools/router.py` (`get_image`) and the label fallback
of `src/backend/src/ml/model.py` (`YOLOModel.predict`).

Modelling conventions:
* Python `int` class ids are modelled as `Nat` (the data model constrains them
  to non-negative; the detector produces non-negative ids).
* Python list indexing `class_names[class_id]` raises `IndexError` when the
  index is out of range; fallible computations are values of `Except String`.
* Python `set` objects have unspecified iteration order; they are modelled as
  deduplicated / filtered lists.  Every verified statement is insensitive to
  that order.
* `confidence` and `bbox` are opaque pass-through payload (floating point);
  no verified statement inspects them.
* Wall-clock fields (`processing_time`) and filesystem side effects (session
  directories, annotated-image writing, stdout printing) are not modelled;
  the archive reader and the detector are oracle parameters (`BatchEnv`).
-/

/-- One detection record, as produced by `YOLOModel.predict` and converted by
`ToolService.convert_to_detection_items` (the conversion is field-for-field
identity, so a single structure models both the raw dict and `DetectionItem`). -/
structure DetectionItem where
  class_id : Nat
  class_name : String
  confidence : Float
  bbox : List Float

/-- `schemas.AnalysisResult` (pydantic model): outcome of one classification. -/
structure AnalysisResult where
  status : String
  total_detections : Nat
  expected_count : Nat
  missing_tools : List String
  extra_tools : List String
  detected_tools : List String
  detections : List DetectionItem
  message : String

/-- `ToolService.expected_tools_count` set in `ToolService.__init__`. -/
def expectedToolsCount : Nat := 11

/-- The set of distinct detected class ids (`detected_classes` in the source;
a Python `set` modelled as a deduplicated list). -/
def detectedClasses (detections : List DetectionItem) : List Nat :=
  (detections.map DetectionItem.class_id).dedup

/-- `missing_classes = expected_classes - detected_classes` where
`expected_classes = set(range(self.expected_tools_count))`. -/
def missingClasses (detections : List DetectionItem) : List Nat :=
  (List.range expectedToolsCount).filter
    (fun i => !((detectedClasses detections).contains i))

/-- `extra_classes = detected_classes - expected_classes`. -/
def extraClasses (detections : List DetectionItem) : List Nat :=
  (detectedClasses detections).filter
    (fun i => !((List.range expectedToolsCount).contains i))

/-- `duplicate_classes = {class_id for class_id, count in class_counts.items()
if count > 1}`: the keys of the `Counter` are exactly the distinct detected
ids, the count is the multiplicity in the input list. -/
def duplicateClasses (detections : List DetectionItem) : List Nat :=
  (detectedClasses detections).filter
    (fun i => decide (1 < (detections.map DetectionItem.class_id).count i))

/-- Python list indexing `class_names[class_id]` (service.py lines 53-55):
returns the label when the index is in range and raises
`IndexError: list index out of range` otherwise.  Note: unlike
`YOLOModel.predict`, this lookup has NO `class_<id>` fallback. -/
def lookupName (classNames : List String) (i : Nat) : Except String String :=
  match classNames.get? i with
  | some s => Except.ok s
  | none => Except.error "list index out of range"

/-- The three list comprehensions of service.py lines 53-55: map each id of a
class set to its label, propagating the first `IndexError`. -/
def resolveNames (classNames : List String) (ids : List Nat) :
    Except String (List String) :=
  ids.mapM (lookupName classNames)

/-- The label fallback of `YOLOModel.predict` (model.py line 91):
`class_names[class_id] if class_id < len(class_names) else f"class_{class_id}"`. -/
def predictClassName (classNames : List String) (i : Nat) : String :=
  match classNames.get? i with
  | some s => s
  | none => "class_" ++ toString i

/-- The `mixed` branch message (service.py line 77): an f-string reading only
the lengths of `missing_tools` and `extra_tools`. -/
def mixedMessage (nm ne : Nat) : String :=
  s!"🔀 Смешанный результат: отсутствует {nm}, лишних {ne}"

/-- The status / message decision chain of `analyze_tool_completeness`
(service.py lines 60-83), first matching branch wins.  Takes the unique-class
count, the three id sets and the three resolved label lists, exactly the data
the Python conditions and f-strings read. -/
def classifyStatus (totalUnique : Nat) (missingC extraC dupC : List Nat)
    (missingTools extraTools duplicateTools : List String) : String × String :=
  if totalUnique = expectedToolsCount ∧ extraC = [] ∧ dupC = [] then
    ("complete", "✅ Полный набор: все 11 инструментов обнаружены (без дубликатов)")
  else if totalUnique = expectedToolsCount ∧ extraC = [] ∧ dupC ≠ [] then
    let nd := duplicateTools.length
    ("duplicates", s!"🔄 Полный набор с дубликатами: все 11 инструментов, но {nd} дублируются")
  else if missingC ≠ [] ∧ extraC = [] ∧ dupC = [] then
    let nm := missingC.length
    ("missing", s!"⚠️ Неполный набор: отсутствует {nm} инструмент(ов)")
  else if missingC ≠ [] ∧ dupC ≠ [] ∧ extraC = [] then
    let nm := missingTools.length
    let nd := duplicateTools.length
    ("missing_duplicates", s!"🔄 Неполный набор с дубликатами: отсутствует {nm}, дублируется {nd}")
  else if extraC ≠ [] ∧ missingC = [] then
    let ne := extraC.length
    ("extra", s!"❌ Лишние инструменты: обнаружено {ne} лишних инструмент(ов)")
  else if extraC ≠ [] ∧ missingC ≠ [] then
    ("mixed", mixedMessage missingTools.length extraTools.length)
  else if dupC ≠ [] ∧ missingC = [] ∧ extraC = [] then
    let nd := duplicateTools.length
    ("duplicates_only", s!"🔄 Дубликаты: все инструменты присутствуют, но {nd} дублируются")
  else
    ("unknown", s!"❓ Неопределенный результат: {totalUnique} уникальных инструментов")

/-- The duplicate display tag appended in service.py line 88
(`f"{tool} (дубликат)"`). -/
def duplicateTag (tool : String) : String := tool ++ " (дубликат)"

/-- The `AnalysisResult` constructed at service.py lines 86-99, given the
three successfully resolved label lists. -/
def buildResult (detections : List DetectionItem)
    (missingTools extraTools duplicateTools : List String) : AnalysisResult :=
  let sm := classifyStatus (detectedClasses detections).length
      (missingClasses detections) (extraClasses detections)
      (duplicateClasses detections) missingTools extraTools duplicateTools
  { status := sm.1
    total_detections := detections.length
    expected_count := expectedToolsCount
    missing_tools := missingTools
    extra_tools :=
      if sm.1 ∈ (["duplicates", "duplicates_only", "missing_duplicates"] : List String) then
        extraTools ++ duplicateTools.map duplicateTag
      else extraTools
    detected_tools := detections.map DetectionItem.class_name
    detections := detections
    message := sm.2 }

/-- `ToolService.analyze_tool_completeness` (service.py lines 32-99).  The
label resolutions of lines 53-55 run in source order (missing, extra,
duplicates), so the first out-of-range id aborts with its `IndexError`. -/
def analyzeToolCompleteness (classNames : List String)
    (detections : List DetectionItem) : Except String AnalysisResult :=
  match resolveNames classNames (missingClasses detections),
        resolveNames classNames (extraClasses detections),
        resolveNames classNames (duplicateClasses detections) with
  | Except.ok mts, Except.ok ets, Except.ok dts =>
      Except.ok (buildResult detections mts ets dts)
  | Except.error e, _, _ => Except.error e
  | _, Except.error e, _ => Except.error e
  | _, _, Except.error e => Except.error e

/-- An 11-entry label table (the deployment default: `expected_tools_count`
labels T0..T10, as in the specification scenarios). -/
def toolLabels : List String :=
  ["T0", "T1", "T2", "T3", "T4", "T5", "T6", "T7", "T8", "T9", "T10"]

/-- A 12-entry label table used to exercise inputs with a detected class 11
whose label does resolve. -/
def toolLabels12 : List String := toolLabels ++ ["T11"]

/-- Helper building a detection with fixed opaque payload. -/
def mkDet (i : Nat) (name : String) : DetectionItem :=
  { class_id := i, class_name := name, confidence := 0.5, bbox := [0, 0, 1, 1] }

/-- Scenario C input: every class 0..10 exactly once plus one detection of the
unknown class 11, labelled by the normalizer fallback of `predict`. -/
def scenarioCDets : List DetectionItem :=
  (List.range 12).map (fun i => mkDet i (predictClassName toolLabels i))

example : missingClasses scenarioCDets = [] := by decide
example : extraClasses scenarioCDets = [11] := by decide
example : analyzeToolCompleteness toolLabels scenarioCDets =
    Except.error "list index out of range" := rfl
example : ∃ r, analyzeToolCompleteness toolLabels [] = Except.ok r ∧
    r.status = "missing" := ⟨_, rfl, rfl⟩
example : ∃ r, analyzeToolCompleteness toolLabels
    ((List.range 11).map (fun i => mkDet i (predictClassName toolLabels i))) =
    Except.ok r ∧ r.status = "complete" := ⟨_, rfl, rfl⟩

/-! ## Batch pipeline (`ToolService.analyze_batch_images`, service.py 147-263) -/

/-- `schemas.ImageAnalysisResult`: one per-entry record of a batch. -/
structure ImageAnalysisResult where
  filename : String
  analysis_result : AnalysisResult
  annotated_image_path : Option String

/-- `schemas.BatchAnalysisResponse` without the unmodelled wall-clock
`processing_time` and the echo-back `config` block (none of which carry
decision logic).  `summary` is the Python dict modelled as an association
list in insertion order. -/
structure BatchAnalysisResponse where
  status : String
  total_images : Nat
  processed_images : Nat
  results : List ImageAnalysisResult
  summary : List (String × Nat)

/-- External collaborators of the batch loop, per archive entry name:
`predictO` is `zip_file.open(...).read()` followed by `YOLOModel.predict`
and `convert_to_detection_items` (any exception is its error string);
`saveO` is `YOLOModel.save_annotated_image` (`none` models the tolerated
null path). -/
structure BatchEnv where
  predictO : String → Except String (List DetectionItem)
  saveO : String → Option String

/-- Mutable loop state of the batch `for` loop: `results`,
`status_summary`, `processed_count`. -/
structure BatchState where
  results : List ImageAnalysisResult
  summary : List (String × Nat)
  processed : Nat

/-- The pre-initialized `status_summary` dict (service.py lines 179-188),
keys in source order. -/
def initialSummary : List (String × Nat) :=
  [("complete", 0), ("missing", 0), ("extra", 0), ("mixed", 0),
   ("duplicates", 0), ("duplicates_only", 0), ("missing_duplicates", 0),
   ("error", 0)]

/-- `status_summary[key] += 1` on a present key: increment the value stored
under `key`, leaving other keys untouched. -/
def summaryIncr (s : List (String × Nat)) (key : String) : List (String × Nat) :=
  s.map (fun p => if p.1 = key then (p.1, p.2 + 1) else p)

/-- The per-item error `AnalysisResult` built in the `except` branch
(service.py lines 219-224); the pydantic defaults fill `expected_count = 11`
and empty lists. -/
def errorAnalysisResult (e : String) : AnalysisResult :=
  { status := "error", total_detections := 0, expected_count := 11
    missing_tools := [], extra_tools := [], detected_tools := []
    detections := [], message := "Ошибка обработки: " ++ e }

/-- A single-quote character, built by code point to render Python
`str(KeyError(k))` which is the key wrapped in single quotes. -/
def pyQuote : String := String.singleton (Char.ofNat 39)

/-- Steps (read + predict + convert + classify) of one loop iteration that can
raise and whose failure is isolated per item. -/
def processItem (classNames : List String) (env : BatchEnv) (filename : String) :
    Except String AnalysisResult :=
  match env.predictO filename with
  | Except.error e => Except.error e
  | Except.ok dets => analyzeToolCompleteness classNames dets

/-- One iteration of the batch `for` loop (service.py lines 190-233).  On
success the item is appended, then `status_summary[status] += 1` runs: if the
status key were absent the `KeyError` would be caught by the same per-item
`except`, which appends a second (error) record for the file and bumps the
`error` counter — the normal item append has already happened.  On failure the
error record is appended and the `error` counter bumped.  `processed_count`
grows by one either way. -/
def batchStep (classNames : List String) (env : BatchEnv)
    (st : BatchState) (filename : String) : BatchState :=
  match processItem classNames env filename with
  | Except.error e =>
      { results := st.results ++ [⟨filename, errorAnalysisResult e, none⟩]
        summary := summaryIncr st.summary "error"
        processed := st.processed + 1 }
  | Except.ok ar =>
      let item : ImageAnalysisResult := ⟨filename, ar, env.saveO filename⟩
      if (st.summary.lookup ar.status).isSome then
        { results := st.results ++ [item]
          summary := summaryIncr st.summary ar.status
          processed := st.processed + 1 }
      else
        { results := st.results ++
            [item, ⟨filename, errorAnalysisResult (pyQuote ++ ar.status ++ pyQuote), none⟩]
          summary := summaryIncr st.summary "error"
          processed := st.processed + 1 }

/-- Lower-casing of one ASCII character, as `str.lower` acts on the ASCII
range (the image extensions compared against are all ASCII). -/
def charLower (c : Char) : Char :=
  if c.toNat ≥ 65 ∧ c.toNat ≤ 90 then Char.ofNat (c.toNat + 32) else c

/-- `f.lower()` restricted to ASCII case folding. -/
def pyLower (s : String) : String := ⟨s.data.map charLower⟩

/-- `pre` is a leading run of `s` (the semantics of Python `str.startswith`),
by structural recursion so the kernel can evaluate it. -/
def leadsWith : List Char → List Char → Bool
  | [], _ => true
  | _ :: _, [] => false
  | a :: as, b :: bs => a == b && leadsWith as bs

/-- Python `str.endswith`: the suffix test, via `leadsWith` on reversals. -/
def pyEndswith (s suffixStr : String) : Bool :=
  leadsWith suffixStr.data.reverse s.data.reverse

/-- The image-entry filter of service.py lines 156-160:
`any(f.lower().endswith(ext) for ext in {'.jpg', '.jpeg', '.png'})`. -/
def isImageFile (f : String) : Bool :=
  pyEndswith (pyLower f) ".jpg" || pyEndswith (pyLower f) ".jpeg" ||
    pyEndswith (pyLower f) ".png"

/-- `ToolService.analyze_batch_images` (service.py lines 147-263).
`zipData = none` models a payload `zipfile.ZipFile` rejects (the raised
`BadZipFile` reaches the outer `except`, lines 254-263); `some names` models a
well-formed archive with entry list `names`.  Session-directory creation,
timing and printing are unmodelled side effects. -/
def analyzeBatchImages (classNames : List String) (env : BatchEnv)
    (zipData : Option (List String)) : BatchAnalysisResponse :=
  match zipData with
  | none =>
      { status := "error", total_images := 0, processed_images := 0
        results := [], summary := [] }
  | some fileList =>
      let imageFiles := fileList.filter isImageFile
      if imageFiles.isEmpty then
        { status := "error", total_images := 0, processed_images := 0
          results := [], summary := [] }
      else
        let final := imageFiles.foldl (batchStep classNames env)
          ⟨[], initialSummary, 0⟩
        { status := "completed", total_images := imageFiles.length
          processed_images := final.processed, results := final.results
          summary := final.summary }

/-- The record the loop produces for one entry when its failure (if any) is
isolated: the independence of entries is stated by comparing the loop output
with a per-entry map of this function. -/
def itemFor (classNames : List String) (env : BatchEnv)
    (filename : String) : ImageAnalysisResult :=
  match processItem classNames env filename with
  | Except.error e => ⟨filename, errorAnalysisResult e, none⟩
  | Except.ok ar => ⟨filename, ar, env.saveO filename⟩

/-- Whether processing of one entry raises. -/
def itemFails (classNames : List String) (env : BatchEnv)
    (filename : String) : Bool :=
  match processItem classNames env filename with
  | Except.error _ => true
  | Except.ok _ => false

/-- A batch environment for concrete runs: decode succeeds with an empty
detection list except for `b.jpg`, which raises a decode error. -/
def env3 : BatchEnv :=
  { predictO := fun f =>
      if f = "b.jpg" then Except.error "Не удалось декодировать изображение"
      else Except.ok []
    saveO := fun _ => none }

example : isImageFile "Photo.JPG" = true := by decide
example : isImageFile "readme.txt" = false := by decide
example : (analyzeBatchImages toolLabels env3
    (some ["a.jpg", "b.jpg", "c.png", "notes.txt"])).processed_images = 3 := by
  decide
example : (analyzeBatchImages toolLabels env3
    (some ["a.jpg", "b.jpg", "c.png", "notes.txt"])).summary.lookup "error" =
    some 1 := by decide

/-! ## Artifact retrieval (`get_image`, router.py 75-105) -/

/-- Split a character list at every slash (the component view `os.path`
normalization works on).  Structural recursion so the kernel evaluates it. -/
def splitSlash (acc : List Char) : List Char → List (List Char)
  | [] => [acc.reverse]
  | c :: cs =>
      if c = '/' then acc.reverse :: splitSlash [] cs
      else splitSlash (c :: acc) cs

/-- `os.path.normpath` component processing for an absolute POSIX path: drop
empty and `.` components, let `..` pop the previous component (and vanish at
the root).  `acc` is the stack of kept components, most recent first. -/
def normComps (acc : List (List Char)) : List (List Char) → List (List Char)
  | [] => acc.reverse
  | c :: cs =>
      if c = [] ∨ c = ['.'] then normComps acc cs
      else if c = ['.', '.'] then normComps acc.tail cs
      else normComps (c :: acc) cs

/-- Reassemble normalized components into an absolute path string body. -/
def joinComps : List (List Char) → List Char
  | [] => []
  | c :: cs => '/' :: (c ++ joinComps cs)

/-- Whether a path string is absolute (starts with a slash). -/
def isAbs (s : String) : Bool :=
  match s.data with
  | [] => false
  | c :: _ => c = '/'

/-- `os.path.join(base, p)` for POSIX: an absolute second argument replaces
the base, otherwise the parts are joined with a slash. -/
def pathJoin (base p : String) : String :=
  if isAbs p then p else base ++ "/" ++ p

/-- `os.path.abspath(q)` for POSIX with current directory `cwd` (assumed
absolute): join with `cwd` when relative, then normalize. -/
def abspath (cwd q : String) : String :=
  let full := if isAbs q then q else cwd ++ "/" ++ q
  match normComps [] (splitSlash [] full.data) with
  | [] => ⟨['/']⟩
  | comps => ⟨joinComps comps⟩

/-- Python `str.startswith` (string-prefix test), as router.py line 87 uses
it on the resolved path. -/
def pyStartswith (s pre : String) : Bool := leadsWith pre.data s.data

/-- `os.path.abspath("results")`: the absolute output root. -/
def rootStr (cwd : String) : String := abspath cwd "results"

/-- The resolved request target:
`os.path.abspath(os.path.join("results", image_path))`. -/
def fullPath (cwd imagePath : String) : String :=
  abspath cwd (pathJoin "results" imagePath)

/-- A resolved absolute path lies inside the output root directory: it is the
root itself or extends it below a path separator. -/
def insideRoot (full root : String) : Prop :=
  full = root ∨ leadsWith (root ++ "/").data full.data = true

instance (full root : String) : Decidable (insideRoot full root) := by
  unfold insideRoot; infer_instance

/-- Outcome of the `get_image` endpoint: 403, 404, or serving the file. -/
inductive GetImageResult where
  | forbidden
  | notFound
  | ok (path : String)
deriving DecidableEq

/-- `get_image` (router.py lines 75-100): join the request path with the
`results` root, normalize to an absolute path, reply 403 unless the result
starts (as a string) with the absolute root, 404 when the target is missing,
otherwise serve it.  `ex` is the `os.path.exists` oracle. -/
def get_image (cwd : String) (ex : String → Bool) (imagePath : String) :
    GetImageResult :=
  let full := fullPath cwd imagePath
  if pyStartswith full (rootStr cwd) = false then GetImageResult.forbidden
  else if ex full = false then GetImageResult.notFound
  else GetImageResult.ok full

example : fullPath "/app" "../resultsX/a.png" = "/app/resultsX/a.png" := by
  decide
example : rootStr "/app" = "/app/results" := by decide
example : get_image "/app" (fun _ => true) "../resultsX/a.png" =
    GetImageResult.ok "/app/resultsX/a.png" := by decide
example : get_image "/app" (fun _ => true) "../../etc/passwd" =
    GetImageResult.forbidden := by decide
example : get_image "/app" (fun _ => false) "sub/a.png" =
    GetImageResult.notFound := by decide

/-! ## Classifier lemmas -/

lemma mem_detectedClasses {d : List DetectionItem} {i : Nat} :
    i ∈ detectedClasses d ↔ i ∈ d.map DetectionItem.class_id := by
  simp [detectedClasses]

lemma nodup_detectedClasses (d : List DetectionItem) :
    (detectedClasses d).Nodup := List.nodup_dedup _

lemma extraClasses_eq_nil_iff {d : List DetectionItem} :
    extraClasses d = [] ↔ ∀ i ∈ detectedClasses d, i < expectedToolsCount := by
  simp [extraClasses, List.filter_eq_nil_iff]

lemma missingClasses_eq_nil_iff {d : List DetectionItem} :
    missingClasses d = [] ↔
      ∀ i, i < expectedToolsCount → i ∈ detectedClasses d := by
  simp [missingClasses, List.filter_eq_nil_iff]

lemma duplicateClasses_eq_nil_iff {d : List DetectionItem} :
    duplicateClasses d = [] ↔
      ∀ i ∈ d.map DetectionItem.class_id,
        (d.map DetectionItem.class_id).count i ≤ 1 := by
  simp only [duplicateClasses, List.filter_eq_nil_iff, mem_detectedClasses,
    decide_eq_true_eq, not_lt]

lemma detectedClasses_length_eq
    {d : List DetectionItem}
    (h1 : ∀ i ∈ detectedClasses d, i < expectedToolsCount)
    (h2 : ∀ i, i < expectedToolsCount → i ∈ detectedClasses d) :
    (detectedClasses d).length = expectedToolsCount := by
  have hnd := nodup_detectedClasses d
  have hsub : (detectedClasses d).toFinset ⊆ Finset.range expectedToolsCount := by
    intro x hx
    exact Finset.mem_range.mpr (h1 x (List.mem_toFinset.mp hx))
  have hsup : Finset.range expectedToolsCount ⊆ (detectedClasses d).toFinset := by
    intro x hx
    exact List.mem_toFinset.mpr (h2 x (Finset.mem_range.mp hx))
  calc (detectedClasses d).length
      = (detectedClasses d).toFinset.card :=
        (List.toFinset_card_of_nodup hnd).symm
    _ = (Finset.range expectedToolsCount).card := by
        rw [Finset.Subset.antisymm hsub hsup]
    _ = expectedToolsCount := Finset.card_range _

lemma mem_detectedClasses_of_lt
    {d : List DetectionItem}
    (h1 : ∀ i ∈ detectedClasses d, i < expectedToolsCount)
    (hlen : (detectedClasses d).length = expectedToolsCount) :
    ∀ i, i < expectedToolsCount → i ∈ detectedClasses d := by
  have hnd := nodup_detectedClasses d
  have hsub : (detectedClasses d).toFinset ⊆ Finset.range expectedToolsCount := by
    intro x hx
    exact Finset.mem_range.mpr (h1 x (List.mem_toFinset.mp hx))
  have hcard : (Finset.range expectedToolsCount).card ≤
      (detectedClasses d).toFinset.card := by
    rw [List.toFinset_card_of_nodup hnd, hlen, Finset.card_range]
  have heq := Finset.eq_of_subset_of_card_le hsub hcard
  intro i hi
  exact List.mem_toFinset.mp (heq ▸ Finset.mem_range.mpr hi)

/-- The seven named statuses, in the order of the decision chain. -/
def statuses7 : List String :=
  ["complete", "duplicates", "missing", "missing_duplicates", "extra",
   "mixed", "duplicates_only"]

lemma classify_fst_mem (d : List DetectionItem)
    (mts ets dts : List String) :
    (classifyStatus (detectedClasses d).length (missingClasses d)
      (extraClasses d) (duplicateClasses d) mts ets dts).1 ∈ statuses7 := by
  unfold classifyStatus
  split
  · simp [statuses7]
  split
  · simp [statuses7]
  split
  · simp [statuses7]
  split
  · simp [statuses7]
  split
  · simp [statuses7]
  split
  · simp [statuses7]
  split
  · simp [statuses7]
  rename_i h1 h2 h3 h4 h5 h6 h7
  exfalso
  by_cases he : extraClasses d = []
  · by_cases hm : missingClasses d = []
    · have hlt := extraClasses_eq_nil_iff.mp he
      have hmem := missingClasses_eq_nil_iff.mp hm
      have hlen := detectedClasses_length_eq hlt hmem
      by_cases hd : duplicateClasses d = []
      · exact h1 ⟨hlen, he, hd⟩
      · exact h2 ⟨hlen, he, hd⟩
    · by_cases hd : duplicateClasses d = []
      · exact h3 ⟨hm, he, hd⟩
      · exact h4 ⟨hm, hd, he⟩
  · by_cases hm : missingClasses d = []
    · exact h5 ⟨he, hm⟩
    · exact h6 ⟨he, hm⟩

lemma analyze_ok_iff {classNames : List String} {d : List DetectionItem}
    {r : AnalysisResult} :
    analyzeToolCompleteness classNames d = Except.ok r ↔
      ∃ mts ets dts,
        resolveNames classNames (missingClasses d) = Except.ok mts ∧
        resolveNames classNames (extraClasses d) = Except.ok ets ∧
        resolveNames classNames (duplicateClasses d) = Except.ok dts ∧
        r = buildResult d mts ets dts := by
  constructor
  · intro h
    cases hm : resolveNames classNames (missingClasses d) with
    | error e => simp [analyzeToolCompleteness, hm] at h
    | ok mts =>
      cases he : resolveNames classNames (extraClasses d) with
      | error e => simp [analyzeToolCompleteness, hm, he] at h
      | ok ets =>
        cases hd : resolveNames classNames (duplicateClasses d) with
        | error e => simp [analyzeToolCompleteness, hm, he, hd] at h
        | ok dts =>
          refine ⟨mts, ets, dts, rfl, rfl, rfl, ?_⟩
          simp only [analyzeToolCompleteness, hm, he, hd,
            Except.ok.injEq] at h
          exact h.symm
  · rintro ⟨mts, ets, dts, hm, he, hd, rfl⟩
    simp [analyzeToolCompleteness, hm, he, hd]

lemma analyze_status_eq {classNames : List String} {d : List DetectionItem}
    {r : AnalysisResult} (h : analyzeToolCompleteness classNames d = Except.ok r)
    (mts ets dts : List String) (hr : r = buildResult d mts ets dts) :
    r.status = (classifyStatus (detectedClasses d).length (missingClasses d)
      (extraClasses d) (duplicateClasses d) mts ets dts).1 := by
  subst hr
  rfl

lemma analyze_status_mem {classNames : List String} {d : List DetectionItem}
    {r : AnalysisResult}
    (h : analyzeToolCompleteness classNames d = Except.ok r) :
    r.status ∈ statuses7 := by
  obtain ⟨mts, ets, dts, _, _, _, rfl⟩ := analyze_ok_iff.mp h
  exact classify_fst_mem d mts ets dts

lemma statuses7_lookup_initialSummary {st : String} (h : st ∈ statuses7) :
    (initialSummary.lookup st).isSome = true := by
  simp only [statuses7, List.mem_cons, List.not_mem_nil, or_false] at h
  rcases h with rfl | rfl | rfl | rfl | rfl | rfl | rfl <;> decide

lemma statuses7_ne_error {st : String} (h : st ∈ statuses7) : st ≠ "error" := by
  simp only [statuses7, List.mem_cons, List.not_mem_nil, or_false] at h
  rcases h with rfl | rfl | rfl | rfl | rfl | rfl | rfl <;> decide

lemma statuses7_ne_unknown {st : String} (h : st ∈ statuses7) :
    st ≠ "unknown" := by
  simp only [statuses7, List.mem_cons, List.not_mem_nil, or_false] at h
  rcases h with rfl | rfl | rfl | rfl | rfl | rfl | rfl <;> decide

lemma classify_fst_eq_complete_iff (tu : Nat) (m e dc : List Nat)
    (mts ets dts : List String) :
    (classifyStatus tu m e dc mts ets dts).1 = "complete" ↔
      tu = expectedToolsCount ∧ e = [] ∧ dc = [] := by
  unfold classifyStatus
  split
  · rename_i h1
    exact iff_of_true rfl h1
  rename_i h1
  refine iff_of_false ?_ h1
  intro hc
  repeat' split at hc
  all_goals simp at hc

lemma classify_mixed {m e : List Nat} (hm : m ≠ []) (he : e ≠ [])
    (tu : Nat) (dc : List Nat) (mts ets dts : List String) :
    classifyStatus tu m e dc mts ets dts =
      ("mixed", mixedMessage mts.length ets.length) := by
  unfold classifyStatus
  rw [if_neg (fun h => he h.2.1), if_neg (fun h => he h.2.1),
    if_neg (fun h => he h.2.1), if_neg (fun h => he h.2.2),
    if_neg (fun h => hm h.2), if_pos ⟨he, hm⟩]

/-! ## Batch loop lemmas -/

lemma summaryIncr_map_fst (s : List (String × Nat)) (k : String) :
    (summaryIncr s k).map Prod.fst = s.map Prod.fst := by
  induction s with
  | nil => rfl
  | cons p t ih =>
      simp only [summaryIncr, List.map_cons] at ih ⊢
      by_cases hp : p.1 = k
      · simp [hp, ih]
      · simp [hp, ih]

lemma lookup_summaryIncr_self (s : List (String × Nat)) (k : String) :
    (summaryIncr s k).lookup k = (s.lookup k).map (· + 1) := by
  induction s with
  | nil => rfl
  | cons p t ih =>
      obtain ⟨a, b⟩ := p
      by_cases ha : a = k
      · subst ha
        simp [summaryIncr, List.lookup_cons]
      · simp only [summaryIncr, List.map_cons] at ih ⊢
        simp only [ha, if_false]
        rw [List.lookup_cons, List.lookup_cons]
        have : (k == a) = false := beq_false_of_ne (fun h => ha h.symm)
        simp only [this]
        exact ih

lemma lookup_summaryIncr_other {k key : String} (s : List (String × Nat))
    (hne : key ≠ k) : (summaryIncr s k).lookup key = s.lookup key := by
  induction s with
  | nil => rfl
  | cons p t ih =>
      obtain ⟨a, b⟩ := p
      by_cases ha : a = k
      · subst ha
        rw [summaryIncr, List.map_cons, if_pos rfl]
        rw [List.lookup_cons, List.lookup_cons]
        have : (key == a) = false := beq_false_of_ne hne
        simp only [this]
        exact ih
      · rw [summaryIncr, List.map_cons, if_neg ha]
        rw [List.lookup_cons, List.lookup_cons]
        cases hk : key == a
        · exact ih
        · rfl

lemma lookup_isSome_of_map_fst_eq {s t : List (String × Nat)}
    (h : s.map Prod.fst = t.map Prod.fst) (k : String) :
    (s.lookup k).isSome = (t.lookup k).isSome := by
  induction s generalizing t with
  | nil =>
      cases t with
      | nil => rfl
      | cons q u => simp at h
  | cons p u ih =>
      cases t with
      | nil => simp at h
      | cons q v =>
          obtain ⟨a, b⟩ := p
          obtain ⟨c, e⟩ := q
          simp only [List.map_cons, List.cons.injEq] at h
          obtain ⟨hac, huv⟩ := h
          rw [List.lookup_cons, List.lookup_cons]
          subst hac
          cases hk : k == a
          · exact ih huv
          · rfl

lemma processItem_ok_status {classNames : List String} {env : BatchEnv}
    {f : String} {ar : AnalysisResult}
    (h : processItem classNames env f = Except.ok ar) : ar.status ∈ statuses7 := by
  cases hp : env.predictO f with
  | error e => simp [processItem, hp] at h
  | ok dets =>
      rw [processItem, hp] at h
      exact analyze_status_mem h

lemma batch_foldl (classNames : List String) (env : BatchEnv) :
    ∀ (imgs : List String) (st : BatchState) (n : Nat),
      st.summary.map Prod.fst = initialSummary.map Prod.fst →
      st.summary.lookup "error" = some n →
      (imgs.foldl (batchStep classNames env) st).processed =
          st.processed + imgs.length ∧
      (imgs.foldl (batchStep classNames env) st).results =
          st.results ++ imgs.map (itemFor classNames env) ∧
      (imgs.foldl (batchStep classNames env) st).summary.lookup "error" =
          some (n + imgs.countP (itemFails classNames env)) ∧
      (imgs.foldl (batchStep classNames env) st).summary.map Prod.fst =
          initialSummary.map Prod.fst := by
  intro imgs
  induction imgs with
  | nil =>
      intro st n hkeys herr
      simp [herr, hkeys]
  | cons f fs ih =>
      intro st n hkeys herr
      rw [List.foldl_cons]
      cases hp : processItem classNames env f with
      | error e =>
          have hstep : batchStep classNames env st f =
              { results := st.results ++ [⟨f, errorAnalysisResult e, none⟩]
                summary := summaryIncr st.summary "error"
                processed := st.processed + 1 } := by
            rw [batchStep, hp]
          have hkeys' : (summaryIncr st.summary "error").map Prod.fst =
              initialSummary.map Prod.fst := by
            rw [summaryIncr_map_fst]; exact hkeys
          have herr' : (summaryIncr st.summary "error").lookup "error" =
              some (n + 1) := by
            rw [lookup_summaryIncr_self, herr]; rfl
          obtain ⟨ihp, ihr, ihe, ihk⟩ :=
            ih (batchStep classNames env st f) (n + 1)
              (by rw [hstep]; exact hkeys') (by rw [hstep]; exact herr')
          refine ⟨?_, ?_, ?_, ihk⟩
          · rw [ihp, hstep]
            simp [Nat.add_assoc, Nat.add_comm 1]
          · rw [ihr, hstep]
            have : itemFor classNames env f = ⟨f, errorAnalysisResult e, none⟩ := by
              rw [itemFor, hp]
            simp [this]
          · rw [ihe]
            have : itemFails classNames env f = true := by
              rw [itemFails, hp]
            simp [List.countP_cons, this, Nat.add_assoc, Nat.add_comm 1]
      | ok ar =>
          have hmem := processItem_ok_status hp
          have hsome : (st.summary.lookup ar.status).isSome = true := by
            rw [lookup_isSome_of_map_fst_eq hkeys]
            exact statuses7_lookup_initialSummary hmem
          have hstep : batchStep classNames env st f =
              { results := st.results ++ [⟨f, ar, env.saveO f⟩]
                summary := summaryIncr st.summary ar.status
                processed := st.processed + 1 } := by
            rw [batchStep, hp]
            simp only [hsome, if_true]
          have hkeys' : (summaryIncr st.summary ar.status).map Prod.fst =
              initialSummary.map Prod.fst := by
            rw [summaryIncr_map_fst]; exact hkeys
          have herr' : (summaryIncr st.summary ar.status).lookup "error" =
              some n := by
            rw [lookup_summaryIncr_other _ (statuses7_ne_error hmem).symm]
            exact herr
          obtain ⟨ihp, ihr, ihe, ihk⟩ :=
            ih (batchStep classNames env st f) n
              (by rw [hstep]; exact hkeys') (by rw [hstep]; exact herr')
          refine ⟨?_, ?_, ?_, ihk⟩
          · rw [ihp, hstep]
            simp [Nat.add_assoc, Nat.add_comm 1]
          · rw [ihr, hstep]
            have : itemFor classNames env f = ⟨f, ar, env.saveO f⟩ := by
              rw [itemFor, hp]
            simp [this]
          · rw [ihe]
            have : itemFails classNames env f = false := by
              rw [itemFails, hp]
            simp [List.countP_cons, this]

/-! ## Path lemmas -/

lemma leadsWith_refl (l : List Char) : leadsWith l l = true := by
  induction l with
  | nil => rfl
  | cons c cs ih => simp [leadsWith, ih]

lemma leadsWith_append_left (a b c : List Char)
    (h : leadsWith (a ++ b) c = true) : leadsWith a c = true := by
  induction a generalizing c with
  | nil => rfl
  | cons x xs ih =>
      cases c with
      | nil => simp [leadsWith] at h
      | cons y ys =>
          simp only [List.cons_append, leadsWith, Bool.and_eq_true] at h ⊢
          exact ⟨h.1, ih ys h.2⟩

lemma string_data_append (s t : String) : (s ++ t).data = s.data ++ t.data := by
  cases s
  cases t
  rfl

/-- C3 counterexample input: class 11 detected twice (on the 11-entry
deployment label table). -/
def c3CounterDets : List DetectionItem :=
  [mkDet 11 "class_11", mkDet 11 "class_11"]

/-- C3 witness input: class 11 detected twice, against a 12-entry label
table on which every lookup resolves. -/
def c3WitnessDets : List DetectionItem := [mkDet 11 "T11", mkDet 11 "T11"]

/-- A full set: every class 0..10 exactly once. -/
def completeDets : List DetectionItem :=
  (List.range 11).map (fun i => mkDet i (predictClassName toolLabels i))

/-- A concrete list with a duplicated class, for order-preservation runs. -/
def c9Dets : List DetectionItem := [mkDet 3 "T3", mkDet 3 "T3", mkDet 5 "T5"]

/-- A batch environment whose decode always succeeds with no detections. -/
def trivialEnv : BatchEnv :=
  { predictO := fun _ => Except.ok [], saveO := fun _ => none }

/-! ## Claim theorems -/

/-- C1 (code bug): the spec says the classifier resolves ids with no
label-table entry to the fallback label and never fails, and Scenario C
expects status `extra` with the fallback label for class 11.  The code's
label resolution (service.py line 54) indexes `class_names` directly, so on
the Scenario C input (classes 0..10 once each plus one detection of class 11,
label table of exactly 11 entries) `analyze_tool_completeness` raises
`IndexError` instead of returning: `missing` is indeed empty and `extra` is
`{11}`, but resolving the extra id fails — although the normalizer
(`predict`, model.py line 91) did attach the fallback label `class_11` to the
very same detection. -/
theorem c1_unknown_class_crashes :
    toolLabels.length = 11 ∧
    missingClasses scenarioCDets = [] ∧
    extraClasses scenarioCDets = [11] ∧
    (scenarioCDets.map DetectionItem.class_name).contains "class_11" = true ∧
    analyzeToolCompleteness toolLabels scenarioCDets =
      Except.error "list index out of range" :=
  ⟨by decide, by decide, by decide, by decide, rfl⟩

/-- C3 counterexample: an input whose `extra` and `missing` sets are both
non-empty on which the classifier does not return `mixed` (or anything at
all): with the 11-entry deployment label table, a detection list consisting
of class 11 twice has `missing = {0..10}` and `extra = {11}`, but label
resolution of the extra id raises `IndexError` before the `mixed` branch is
reached. -/
theorem c3_counterexample :
    missingClasses c3CounterDets ≠ [] ∧
    extraClasses c3CounterDets ≠ [] ∧
    analyzeToolCompleteness toolLabels c3CounterDets =
      Except.error "list index out of range" :=
  ⟨by decide, by decide, rfl⟩

/-- C3 (amended): for every detection list whose `extra` and `missing` id
sets are both non-empty, PROVIDED every involved id resolves in the label
table, the classifier returns status `mixed` whose message reports only the
missing and extra counts, and `extra_tools` is exactly the resolved extra
labels — no duplicate-tag suffix is appended even when some detected class
has multiplicity greater than one (no duplicate hypothesis appears below). -/
theorem c3_mixed_drops_duplicates (classNames : List String)
    (d : List DetectionItem) (mts ets dts : List String)
    (hm : resolveNames classNames (missingClasses d) = Except.ok mts)
    (he : resolveNames classNames (extraClasses d) = Except.ok ets)
    (hd : resolveNames classNames (duplicateClasses d) = Except.ok dts)
    (hmne : missingClasses d ≠ []) (hene : extraClasses d ≠ []) :
    analyzeToolCompleteness classNames d = Except.ok
      { status := "mixed"
        total_detections := d.length
        expected_count := expectedToolsCount
        missing_tools := mts
        extra_tools := ets
        detected_tools := d.map DetectionItem.class_name
        detections := d
        message := mixedMessage mts.length ets.length } := by
  simp only [analyzeToolCompleteness, hm, he, hd]
  rw [buildResult, classify_mixed hmne hene]
  simp

/-- C4: the classifier returns status `complete` iff exactly
`expectedToolsCount` distinct class ids are detected, every detected id is
inside the canonical class space, and no id occurs more than once. -/
theorem c4_complete_iff (classNames : List String) (d : List DetectionItem) :
    (∃ r, analyzeToolCompleteness classNames d = Except.ok r ∧
      r.status = "complete") ↔
      ((detectedClasses d).length = expectedToolsCount ∧
       (∀ i ∈ d.map DetectionItem.class_id, i < expectedToolsCount) ∧
       (∀ i ∈ d.map DetectionItem.class_id,
          (d.map DetectionItem.class_id).count i ≤ 1)) := by
  constructor
  · rintro ⟨r, hok, hst⟩
    obtain ⟨mts, ets, dts, _, _, _, rfl⟩ := analyze_ok_iff.mp hok
    have hfst : (classifyStatus (detectedClasses d).length (missingClasses d)
        (extraClasses d) (duplicateClasses d) mts ets dts).1 = "complete" := hst
    obtain ⟨hlen, he, hd⟩ := (classify_fst_eq_complete_iff _ _ _ _ _ _ _).mp hfst
    refine ⟨hlen, ?_, duplicateClasses_eq_nil_iff.mp hd⟩
    intro i hi
    exact extraClasses_eq_nil_iff.mp he i (mem_detectedClasses.mpr hi)
  · rintro ⟨hlen, hbound, hcount⟩
    have he : extraClasses d = [] :=
      extraClasses_eq_nil_iff.mpr
        (fun i hi => hbound i (mem_detectedClasses.mp hi))
    have hd : duplicateClasses d = [] := duplicateClasses_eq_nil_iff.mpr hcount
    have hm : missingClasses d = [] :=
      missingClasses_eq_nil_iff.mpr
        (mem_detectedClasses_of_lt (extraClasses_eq_nil_iff.mp he) hlen)
    refine ⟨buildResult d [] [] [], ?_, ?_⟩
    · exact analyze_ok_iff.mpr ⟨[], [], [],
        by rw [hm]; rfl, by rw [he]; rfl, by rw [hd]; rfl, rfl⟩
    · show (classifyStatus (detectedClasses d).length (missingClasses d)
        (extraClasses d) (duplicateClasses d) [] [] []).1 = "complete"
      exact (classify_fst_eq_complete_iff _ _ _ _ _ _ _).mpr ⟨hlen, he, hd⟩

/-- C4 witness: a concrete full set of 11 distinct classes is classified
`complete`. -/
theorem c4_complete_iff_witness :
    ∃ r, analyzeToolCompleteness toolLabels completeDets = Except.ok r ∧
      r.status = "complete" :=
  (c4_complete_iff toolLabels completeDets).mpr
    ⟨by decide, by decide, by decide⟩

/-- C5: the id sets underlying `missing_tools` and `extra_tools` are
disjoint: they are set differences in opposite directions over the canonical
class space, so no class id can be in both. -/
theorem c5_missing_extra_disjoint (d : List DetectionItem) :
    (missingClasses d).filter (fun i => (extraClasses d).contains i) = [] := by
  rw [List.filter_eq_nil_iff]
  intro a ha hc
  have hx : a ∈ extraClasses d := List.elem_iff.mp hc
  simp only [missingClasses, List.mem_filter, List.mem_range] at ha
  simp only [extraClasses, List.mem_filter, Bool.not_eq_eq_eq_not,
    Bool.not_true] at hx
  have : a ∈ List.range expectedToolsCount := List.mem_range.mpr ha.1
  have hne : (List.range expectedToolsCount).contains a = true :=
    List.elem_iff.mpr this
  rw [hx.2] at hne
  exact Bool.false_ne_true hne

/-- C9: classification is a pure, deterministic function of its inputs, and
in every successful outcome `detected_tools` is exactly the class-name
sequence of the input detections, in input order, one label per detection,
duplicates included. -/
theorem c9_pure_and_order_preserving (classNames : List String)
    (d₁ d₂ : List DetectionItem) (hEq : d₁ = d₂) :
    analyzeToolCompleteness classNames d₁ =
      analyzeToolCompleteness classNames d₂ ∧
    ∀ r, analyzeToolCompleteness classNames d₁ = Except.ok r →
      r.detected_tools = d₁.map DetectionItem.class_name ∧
      r.detected_tools.length = d₁.length ∧
      r.total_detections = d₁.length := by
  subst hEq
  refine ⟨rfl, ?_⟩
  intro r hok
  obtain ⟨mts, ets, dts, _, _, _, rfl⟩ := analyze_ok_iff.mp hok
  exact ⟨rfl, by simp [buildResult], rfl⟩

/-- C9 witness: on a concrete list with a duplicated class,
`detected_tools` is the ordered per-detection label list. -/
theorem c9_witness :
    ∃ r, analyzeToolCompleteness toolLabels c9Dets = Except.ok r ∧
      r.detected_tools = ["T3", "T3", "T5"] := by
  obtain ⟨r, hr⟩ : ∃ r, analyzeToolCompleteness toolLabels c9Dets =
      Except.ok r := ⟨_, rfl⟩
  have h := (c9_pure_and_order_preserving toolLabels c9Dets c9Dets rfl).2 r hr
  exact ⟨r, hr, h.1.trans (by decide)⟩

/-- C10: with the expected-class count fixed at 11, every status the
classifier actually returns is one of the seven named statuses — the
`unknown` fallback branch is unreachable — and is a key of the
pre-initialized batch summary map, so the summary increment cannot fail. -/
theorem c10_no_unknown_status (classNames : List String)
    (d : List DetectionItem) (r : AnalysisResult)
    (h : analyzeToolCompleteness classNames d = Except.ok r) :
    r.status ∈ statuses7 ∧ r.status ≠ "unknown" ∧
    (initialSummary.lookup r.status).isSome = true := by
  have hmem := analyze_status_mem h
  exact ⟨hmem, statuses7_ne_unknown hmem, statuses7_lookup_initialSummary hmem⟩

/-- C10 witness: concrete application on the empty detection list. -/
theorem c10_no_unknown_status_witness :
    ∃ r, analyzeToolCompleteness toolLabels [] = Except.ok r ∧
      r.status ∈ statuses7 ∧ r.status ≠ "unknown" ∧
      (initialSummary.lookup r.status).isSome = true := by
  obtain ⟨r, hr⟩ : ∃ r, analyzeToolCompleteness toolLabels [] =
      Except.ok r := ⟨_, rfl⟩
  exact ⟨r, hr, c10_no_unknown_status toolLabels [] r hr⟩

/-- C3 witness: a concrete mixed input with a duplicated class (class 11
twice, 12-entry table): status `mixed`, message from the two counts only,
`extra_tools` without any duplicate tag although `duplicates ≠ ∅`. -/
theorem c3_mixed_drops_duplicates_witness :
    analyzeToolCompleteness toolLabels12 c3WitnessDets = Except.ok
      { status := "mixed"
        total_detections := 2
        expected_count := expectedToolsCount
        missing_tools := ["T0", "T1", "T2", "T3", "T4", "T5", "T6", "T7",
          "T8", "T9", "T10"]
        extra_tools := ["T11"]
        detected_tools := ["T11", "T11"]
        detections := c3WitnessDets
        message := mixedMessage 11 1 } ∧
    duplicateClasses c3WitnessDets ≠ [] := by
  constructor
  · exact c3_mixed_drops_duplicates toolLabels12 c3WitnessDets
      ["T0", "T1", "T2", "T3", "T4", "T5", "T6", "T7", "T8", "T9", "T10"]
      ["T11"] ["T11"] rfl rfl rfl (by decide) (by decide)
  · decide

/-- C6: archive-level failures are reported, not raised: an invalid archive
container, or an archive with zero entries matching an image extension,
yields a response with status `error`, zero total and processed counts, an
empty results list and an empty summary (the embedded batch operation is a
total function: the outer `except` of service.py lines 254-263 converts any
archive-level exception into this value). -/
theorem c6_archive_error_reported (classNames : List String) (env : BatchEnv)
    (zipData : Option (List String))
    (h : zipData = none ∨
      ∃ l, zipData = some l ∧ l.filter isImageFile = []) :
    analyzeBatchImages classNames env zipData =
      { status := "error", total_images := 0, processed_images := 0
        results := [], summary := [] } := by
  rcases h with rfl | ⟨l, rfl, hl⟩
  · rfl
  · simp [analyzeBatchImages, hl]

/-- C6 witness: an archive holding only a text entry. -/
theorem c6_archive_error_reported_witness :
    analyzeBatchImages toolLabels trivialEnv (some ["readme.txt"]) =
      { status := "error", total_images := 0, processed_images := 0
        results := [], summary := [] } :=
  c6_archive_error_reported toolLabels trivialEnv (some ["readme.txt"])
    (Or.inr ⟨["readme.txt"], rfl, by decide⟩)

/-- C7: per-item failures are isolated.  For every non-empty qualifying
entry list, the batch completes with `processed_images` equal to the number
of qualifying entries; the result list is exactly the per-entry map of the
independent item outcome (an `error` record carrying the failure message
when that entry's processing raises, the normal classification otherwise —
so other entries are unaffected by one entry's failure); and the `error`
summary counter equals the number of failing entries. -/
theorem c7_item_failures_isolated (classNames : List String) (env : BatchEnv)
    (names : List String) (h : names.filter isImageFile ≠ []) :
    (analyzeBatchImages classNames env (some names)).status = "completed" ∧
    (analyzeBatchImages classNames env (some names)).processed_images =
      (names.filter isImageFile).length ∧
    (analyzeBatchImages classNames env (some names)).results =
      (names.filter isImageFile).map (itemFor classNames env) ∧
    (analyzeBatchImages classNames env (some names)).summary.lookup "error" =
      some ((names.filter isImageFile).countP (itemFails classNames env)) := by
  have hne : (names.filter isImageFile).isEmpty = false := by
    cases hfe : names.filter isImageFile with
    | nil => exact absurd hfe h
    | cons a l => rfl
  obtain ⟨hp, hr, he, _⟩ := batch_foldl classNames env
    (names.filter isImageFile) ⟨[], initialSummary, 0⟩ 0 rfl (by decide)
  simp only [analyzeBatchImages, hne, Bool.false_eq_true, if_false]
  refine ⟨trivial, ?_, ?_, ?_⟩
  · rw [hp]
    simp
  · rw [hr]
    simp
  · rw [he]
    simp

/-- C7 witness: three qualifying entries of which exactly one raises a
decode error: `processed_images = 3`, one `error` item, the other two
classified normally. -/
theorem c7_item_failures_isolated_witness :
    (analyzeBatchImages toolLabels env3
        (some ["a.jpg", "b.jpg", "c.png", "notes.txt"])).processed_images = 3 ∧
    (analyzeBatchImages toolLabels env3
        (some ["a.jpg", "b.jpg", "c.png", "notes.txt"])).summary.lookup
      "error" = some 1 ∧
    (analyzeBatchImages toolLabels env3
        (some ["a.jpg", "b.jpg", "c.png", "notes.txt"])).results.map
      (fun item => item.analysis_result.status) =
      ["missing", "error", "missing"] := by
  obtain ⟨hs, hp, hr, he⟩ := c7_item_failures_isolated toolLabels env3
    ["a.jpg", "b.jpg", "c.png", "notes.txt"] (by decide)
  refine ⟨hp.trans (by decide), he.trans (by decide), ?_⟩
  rw [hr]
  decide

/-- C8: the returned `total_images` equals the number of archive entries
whose name ends in `.jpg`, `.jpeg` or `.png` compared case-insensitively;
all other entries are excluded from the count. -/
theorem c8_total_images_counts_image_entries (classNames : List String)
    (env : BatchEnv) (names : List String) :
    (analyzeBatchImages classNames env (some names)).total_images =
      (names.filter isImageFile).length := by
  cases hfe : names.filter isImageFile with
  | nil => simp [analyzeBatchImages, hfe]
  | cons a l => simp [analyzeBatchImages, hfe]

/-- C2 counterexample: the request path `../resultsX/a.png` resolves to
`/app/resultsX/a.png` (with current directory `/app`), which lies OUTSIDE
the output root directory `/app/results` — it is neither the root nor below
it — yet `get_image` does not reject it: the guard only checks that the
resolved string starts with the root string, and the sibling directory name
`resultsX` extends `results`.  With the target reported existing, the file
is served. -/
theorem c2_counterexample :
    get_image "/app" (fun _ => true) "../resultsX/a.png" =
      GetImageResult.ok "/app/resultsX/a.png" ∧
    ¬ insideRoot "/app/resultsX/a.png" (rootStr "/app") := by
  constructor
  · decide
  · decide

/-- C2 (amended): `get_image` rejects every request whose resolved absolute
path does not extend the absolute output root AS A STRING prefix — in
particular every escape whose resolution does not share the root's string
prefix — and, for every request resolving inside the root (the root itself
or below a path separator) whose target does not exist, returns the
not-found signal.  Sibling paths whose resolved string merely extends the
root's name (e.g. `resultsX`) are outside the root yet pass the guard, which
is the sole deviation from the original claim. -/
theorem c2_traversal_guard (cwd : String) (ex : String → Bool) (p : String) :
    (leadsWith (rootStr cwd).data (fullPath cwd p).data = false →
      get_image cwd ex p = GetImageResult.forbidden) ∧
    (insideRoot (fullPath cwd p) (rootStr cwd) →
      ex (fullPath cwd p) = false →
      get_image cwd ex p = GetImageResult.notFound) := by
  constructor
  · intro hpre
    simp [get_image, pyStartswith, hpre]
  · intro hin hex
    have hpre : pyStartswith (fullPath cwd p) (rootStr cwd) = true := by
      rcases hin with heq | hlead
      · rw [pyStartswith, heq]
        exact leadsWith_refl _
      · rw [string_data_append] at hlead
        rw [pyStartswith]
        exact leadsWith_append_left (rootStr cwd).data ("/").data
          (fullPath cwd p).data hlead
    simp [get_image, hpre, hex]

/-- C2 witness: a traversal escaping the root is rejected with 403; an
inside-root path whose target is missing yields 404. -/
theorem c2_traversal_guard_witness :
    get_image "/app" (fun _ => false) "../../etc/passwd" =
      GetImageResult.forbidden ∧
    get_image "/app" (fun _ => false) "sub/a.png" =
      GetImageResult.notFound :=
  ⟨(c2_traversal_guard "/app" (fun _ => false) "../../etc/passwd").1
      (by decide),
   (c2_traversal_guard "/app" (fun _ => false) "sub/a.png").2
      (by decide) rfl⟩
